import Mathlib

/-!
Verification development for RustyInterpreter, a Lox-style tree-walking
interpreter written in Rust (files: grammar.rs, scanner.rs, parser.rs,
interpreter.rs, main.rs).

The Rust code is shallowly embedded as executable Lean definitions:
  * numbers (Rust f64) are modelled as `Rat`; the number literals the scanner
    produces (decimal digit strings) are exactly representable, so this is
    faithful for every claim below (none exercises overflow, NaN or
    rounding);
  * Rust panics (slice out of range, unwrap on None, todo!, unreachable!)
    are modelled explicitly as `Except.error` values carrying a message that
    starts with "panic:";
  * iterator state is explicit: the scanner walks a `List Char`, the parser
    an index into a `List Token`, the interpreter threads its variable map;
  * character classes: Rust `is_ascii_digit` is `Char.isDigit` (exact);
    Rust `char::is_alphabetic` / `is_alphanumeric` are Unicode classes and
    are modelled by the ASCII `Char.isAlpha` / `Char.isAlphanum`; no claim
    depends on non-ASCII identifier characters;
  * recursion whose Rust counterpart is an unbounded loop takes a fuel
    argument (structural, so the kernel can evaluate it); fuel exhaustion
    yields an error distinct from every real error, and every entry point is
    given fuel that the corresponding loop can never exhaust.
-/

namespace RustyLox

/-! ### grammar.rs: TokenType, Token, Literal -/

/-- grammar.rs `TokenType` (lines 5-50). -/
inductive TokenType where
  | LEFT_PAREN
  | RIGHT_PAREN
  | LEFT_BRACE
  | RIGHT_BRACE
  | COMMA
  | DOT
  | MINUS
  | PLUS
  | SEMICOLON
  | SLASH
  | STAR
  | EQUAL
  | EQUAL_EQUAL
  | BANG
  | BANG_EQUAL
  | LESS
  | LESS_EQUAL
  | GREATER
  | GREATER_EQUAL
  | IDENTIFIER
  | STRING
  | NUMBER
  | AND
  | CLASS
  | ELSE
  | FALSE
  | FOR
  | FUN
  | IF
  | NIL
  | OR
  | PRINT
  | RETURN
  | SUPER
  | THIS
  | TRUE
  | VAR
  | WHILE
  | EOF
deriving DecidableEq, Repr

/-- grammar.rs `Literal` (lines 93-99); `f64` is modelled as `Rat`. -/
inductive Literal where
  | boolean (b : Bool)
  | str (s : String)
  | number (n : Rat)
  | nil
deriving DecidableEq, Repr

/-- grammar.rs `Token` (lines 76-82). -/
structure Token where
  tokenType : TokenType
  lexeme : String
  literal : Option Literal
  lineNum : Nat
deriving DecidableEq, Repr

/-- The keyword table of grammar.rs `TokenType::get_token_type`
(lines 52-74). -/
def keywordPairs : List (String × TokenType) :=
  [("and", .AND), ("class", .CLASS), ("else", .ELSE), ("false", .FALSE),
   ("for", .FOR), ("fun", .FUN), ("if", .IF), ("nil", .NIL), ("or", .OR),
   ("print", .PRINT), ("return", .RETURN), ("super", .SUPER),
   ("this", .THIS), ("true", .TRUE), ("var", .VAR), ("while", .WHILE)]

/-- First-match walk over the keyword table, defaulting to `IDENTIFIER`
(the `_` arm of the Rust `match`). -/
def keywordFind : List (String × TokenType) → String → TokenType
  | [], _ => .IDENTIFIER
  | (k, t) :: r, w => if w = k then t else keywordFind r w

/-- grammar.rs `TokenType::get_token_type` (lines 52-74): the Rust `match`
over string literals, as a first-match table walk. -/
def getTokenTypeOf (w : String) : TokenType :=
  keywordFind keywordPairs w

/-! ### Number formatting

Rust prints an `f64` in two ways in this program:
  * `write!(f, "{int}.0")` / `write!(f, "{n}")` in `Display for Literal`
    (grammar.rs lines 101-117): an integral value prints with a forced
    trailing `.0`;
  * `println!("{}", n)` in `Interpreter::execute` for `Print` and in main.rs
    `evaluate` (interpreter.rs lines 25-28, main.rs lines 62-65): Rust's
    default `f64` display, which prints an integral value with no decimal
    point at all (`3.0f64` prints as `3`).

`fracDigitStr` renders at most `fuel` fractional decimal digits; for the
finite decimal fractions the scanner can produce this matches Rust's
shortest-round-trip display. No claim exercises a non-integral number, so
the fractional branch is never load-bearing below. -/

def fracDigitStr : Nat → Rat → String
  | 0, _ => ""
  | fuel+1, q =>
    if q = 0 then ""
    else
      let q10 := q * 10
      let d : Int := q10.floor
      toString d ++ fracDigitStr fuel (q10 - (d : Rat))

/-- Decimal rendering of a non-integral rational, sign then integer part
then fractional digits (models Rust's display of a non-integral `f64` for
the finite decimals arising from lexed literals). -/
def fmtDecimal (q : Rat) : String :=
  (if q < 0 then "-" else "") ++ toString |q|.floor ++ "." ++
    fracDigitStr 30 (|q| - (|q|.floor : Rat))

/-- Rust's default `{}` display of an `f64`: integral values print without
any decimal point (`3.0f64` → `3`). -/
def fmtNumberDefault (q : Rat) : String :=
  if q.den = 1 then toString q.num else fmtDecimal q

/-- grammar.rs `Display for Literal` (lines 101-117): an integral number
prints with a forced `.0` suffix; booleans print `true`/`false`, nil prints
`nil`, strings print bare. -/
def fmtLiteral : Literal → String
  | .boolean b => if b then "true" else "false"
  | .str s => s
  | .number n => if n.den = 1 then toString n.num ++ ".0" else fmtDecimal n
  | .nil => "nil"

/-! ### scanner.rs -/

/-- scanner.rs `handle_string` loop (lines 109-114): consume characters,
keeping them, up to and including the first `"`; returns (consumed chars,
rest). -/
def takeStringBody : List Char → List Char × List Char
  | [] => ([], [])
  | c :: r =>
    if c = '"' then ([c], r)
    else
      let p := takeStringBody r
      (c :: p.1, p.2)

/-- scanner.rs `advance_next_line` (lines 99-106): consume characters up to
and including the first newline; returns (rest, whether a newline was
found). -/
def takeComment : List Char → List Char × Bool
  | [] => ([], false)
  | c :: r => if c = '\n' then (r, true) else takeComment r

/-- scanner.rs `handle_number` loop (lines 126-146): consume digits, and a
single dot when it is directly followed by a digit;
returns (consumed chars, rest). -/
def takeNumAux : List Char → Bool → List Char × List Char
  | [], _ => ([], [])
  | c :: r, hasDot =>
    if c.isDigit then
      let p := takeNumAux r hasDot
      (c :: p.1, p.2)
    else if c = '.' ∧ hasDot = false ∧ (match r with | d :: _ => d.isDigit | [] => false) = true then
      let p := takeNumAux r true
      (c :: p.1, p.2)
    else ([], c :: r)

/-- scanner.rs `handle_identifier` loop (lines 152-159): consume
alphanumeric characters and underscores; returns (consumed chars, rest). -/
def takeIdent : List Char → List Char × List Char
  | [] => ([], [])
  | c :: r =>
    if c.isAlphanum ∨ c = '_' then
      let p := takeIdent r
      (c :: p.1, p.2)
    else ([], c :: r)

/-- Value of a decimal digit string. -/
def digitsToNat (l : List Char) : Nat :=
  l.foldl (fun a c => a * 10 + (c.toNat - 48)) 0

/-- scanner.rs line 147 `self.current.parse::<f64>().unwrap()`: the lexeme
is digits optionally followed by a dot and digits, so the parse is exact as
a rational: `ip.fp` has the value `(ip * 10^k + fp) / 10^k`. -/
def parseNumberLit (l : List Char) : Rat :=
  let ip := l.takeWhile (fun c => c ≠ '.')
  let fp := (l.dropWhile (fun c => c ≠ '.')).drop 1
  Rat.divInt (digitsToNat ip * 10 ^ fp.length + digitsToNat fp) (10 ^ fp.length)

/-- scanner.rs `handle_comparison` (lines 75-89), the one-character token
type for `=`, `!`, `<`, `>`. -/
def singleCmpType (c : Char) : TokenType :=
  if c = '=' then .EQUAL else if c = '!' then .BANG
  else if c = '<' then .LESS else .GREATER

/-- scanner.rs `handle_comparison` (lines 75-89), the two-character token
type when a `=` follows. -/
def doubleCmpType (c : Char) : TokenType :=
  if c = '=' then .EQUAL_EQUAL else if c = '!' then .BANG_EQUAL
  else if c = '<' then .LESS_EQUAL else .GREATER_EQUAL

/-- A token with no literal payload. -/
def mkTok (tt : TokenType) (lx : String) (line : Nat) : Token :=
  ⟨tt, lx, none, line⟩

/-- scanner.rs `scan_tokens` / `scan_token` main loop (lines 22-64), with
all the handler methods inlined.  State: remaining characters, current line
number, error flag, tokens so far.  Each step consumes at least one
character, so fuel `length + 1` can never be exhausted.  The `.error`
result models the panic in `handle_string` (line 121): when the opening
quote is the last character of the input, `current` is exactly `"` and
passes the `ends_with('"')` check, and the slice `current[1..0]` panics. -/
def scanLoop : Nat → List Char → Nat → Bool → List Token → Except String (List Token × Nat × Bool)
  | 0, _, _, _, _ => .error ("scanner fuel exhausted")
  | _+1, [], line, err, toks => .ok (toks, line, err)
  | fuel+1, c :: rest, line, err, toks =>
    if c = '(' then scanLoop fuel rest line err (toks ++ [mkTok .LEFT_PAREN ("(") line])
    else if c = ')' then scanLoop fuel rest line err (toks ++ [mkTok .RIGHT_PAREN (")") line])
    else if c = '\x7b' then scanLoop fuel rest line err (toks ++ [mkTok .LEFT_BRACE ("\x7b") line])
    else if c = '\x7d' then scanLoop fuel rest line err (toks ++ [mkTok .RIGHT_BRACE ("\x7d") line])
    else if c = ',' then scanLoop fuel rest line err (toks ++ [mkTok .COMMA (",") line])
    else if c = '.' then scanLoop fuel rest line err (toks ++ [mkTok .DOT (".") line])
    else if c = '-' then scanLoop fuel rest line err (toks ++ [mkTok .MINUS ("-") line])
    else if c = '+' then scanLoop fuel rest line err (toks ++ [mkTok .PLUS ("+") line])
    else if c = ';' then scanLoop fuel rest line err (toks ++ [mkTok .SEMICOLON (";") line])
    else if c = '*' then scanLoop fuel rest line err (toks ++ [mkTok .STAR ("*") line])
    else if c = '=' ∨ c = '!' ∨ c = '<' ∨ c = '>' then
      if rest.head? = some '=' then
        scanLoop fuel (rest.drop 1) line err
          (toks ++ [mkTok (doubleCmpType c) (String.mk [c, '=']) line])
      else scanLoop fuel rest line err (toks ++ [mkTok (singleCmpType c) (String.mk [c]) line])
    else if c = '/' then
      if rest.head? = some '/' then
        let p := takeComment rest
        scanLoop fuel p.1 (if p.2 then line + 1 else line) err toks
      else scanLoop fuel rest line err (toks ++ [mkTok .SLASH ("/") line])
    else if c = ' ' ∨ c = '\r' ∨ c = '\t' then scanLoop fuel rest line err toks
    else if c = '\n' then scanLoop fuel rest (line + 1) err toks
    else if c = '"' then
      let p := takeStringBody rest
      let current := '"' :: p.1
      if current.getLast? ≠ some '"' then
        scanLoop fuel p.2 line true toks
      else if current.length < 2 then
        .error ("panic: slice index starts at 1 but ends at 0")
      else
        scanLoop fuel p.2 line err
          (toks ++ [⟨.STRING, String.mk current,
            some (.str (String.mk ((current.drop 1).dropLast))), line⟩])
    else if c.isDigit then
      let p := takeNumAux rest false
      scanLoop fuel p.2 line err
        (toks ++ [⟨.NUMBER, String.mk (c :: p.1),
          some (.number (parseNumberLit (c :: p.1))), line⟩])
    else if c.isAlpha ∨ c = '_' then
      let p := takeIdent rest
      let w := String.mk (c :: p.1)
      scanLoop fuel p.2 line err (toks ++ [⟨getTokenTypeOf w, w, none, line⟩])
    else
      scanLoop fuel rest line true toks

/-- scanner.rs `scan_tokens` (lines 22-33): run the loop over the whole
input, then append the single `EOF` token carrying the final line number.
Returns (tokens, final line number, error flag); `.error` is the
`handle_string` panic. -/
def scanTokens (s : String) : Except String (List Token × Nat × Bool) :=
  match scanLoop (s.toList.length + 1) s.toList 1 false [] with
  | .error m => .error m
  | .ok (toks, line, err) => .ok (toks ++ [⟨.EOF, "", none, line⟩], line, err)

/-! ### Specification-level line counting (for claim C6)

An independent single-pass description of which newlines the scanner
counts: a newline in normal code or at the end of a `//` comment increments
the line number; a newline inside a string literal does not (scanner.rs
`handle_string`, lines 108-123, never touches `line_num`). -/

/-- Mode of the line-counting walk: ordinary code, just after a single `/`
(a second `/` starts a comment), inside a string literal, inside a `//`
comment. -/
inductive CountMode where
  | normal
  | afterSlash
  | inString
  | inComment
deriving DecidableEq, Repr

/-- Count the newline characters of the input that the scanner's line
counter registers: every newline outside a string literal (including the
newline that ends a `//` comment), and no newline inside a string
literal. -/
def countLines : List Char → CountMode → Nat
  | [], _ => 0
  | c :: r, .normal =>
    if c = '\n' then 1 + countLines r .normal
    else if c = '"' then countLines r .inString
    else if c = '/' then countLines r .afterSlash
    else countLines r .normal
  | c :: r, .afterSlash =>
    if c = '/' then countLines r .inComment
    else if c = '\n' then 1 + countLines r .normal
    else if c = '"' then countLines r .inString
    else countLines r .normal
  | c :: r, .inString =>
    if c = '"' then countLines r .normal else countLines r .inString
  | c :: r, .inComment =>
    if c = '\n' then 1 + countLines r .normal else countLines r .inComment

/-! ### grammar.rs: Expression and Statement ASTs -/

/-- grammar.rs `Expression` (lines 119-137). -/
inductive Expression where
  | literal (l : Literal)
  | group (e : Expression)
  | unary (op : Token) (expr : Expression)
  | binary (op : Token) (left : Expression) (right : Expression)
  | var (name : Token)
  | assign (name : Token) (right : Expression)
deriving DecidableEq, Repr

/-- grammar.rs `Statement` (lines 160-169). -/
inductive Statement where
  | expression (e : Expression)
  | print (e : Expression)
  | varDecl (name : Token) (init : Option Expression)
  | block (stmts : List Statement)
deriving Repr

/-- grammar.rs `Display for Expression` (lines 139-158): fully
parenthesized prefix printing.  Note that a `Variable` prints as
`(var name)` and an `Assign` as `(assign name value)`. -/
def fmtExpression : Expression → String
  | .literal l => fmtLiteral l
  | .group g => "(group " ++ fmtExpression g ++ ")"
  | .unary op e => "(" ++ op.lexeme ++ " " ++ fmtExpression e ++ ")"
  | .binary op l r =>
    "(" ++ op.lexeme ++ " " ++ fmtExpression l ++ " " ++ fmtExpression r ++ ")"
  | .var name => "(var " ++ name.lexeme ++ ")"
  | .assign name right => "(assign " ++ name.lexeme ++ " " ++ fmtExpression right ++ ")"

/-- Whether an expression is a `Variable` node (the only valid assignment
target, parser.rs lines 63-72). -/
def Expression.isVarNode : Expression → Bool
  | .var _ => true
  | _ => false

/-! ### parser.rs

The parser state is the immutable token slice `ts` plus the index
`current`; every function returns its result together with the new index.
Rust's generic `binary_operation` (parser.rs lines 96-112) is instantiated
once per precedence level.  `fuel` bounds recursion depth only; it is an
embedding artifact (the Rust loops are bounded by token consumption). -/

/-- Fallback token used to totalize list indexing in the embedding; the
invariant theorem (claim C9) shows the parser never actually reads out of
bounds on scanner-shaped token lists. -/
def outTok : Token := ⟨.EOF, "", none, 0⟩

/-- parser.rs `peek` (lines 190-192). -/
def peekT (ts : List Token) (cur : Nat) : Token := ts.getD cur outTok

/-- parser.rs `previous` (lines 194-196). -/
def prevT (ts : List Token) (cur : Nat) : Token := ts.getD (cur - 1) outTok

/-- parser.rs `end` (lines 186-188). -/
def atEnd (ts : List Token) (cur : Nat) : Bool := (peekT ts cur).tokenType == .EOF

/-- parser.rs `advance` (lines 179-184), the index change. -/
def advanceP (ts : List Token) (cur : Nat) : Nat :=
  if atEnd ts cur then cur else cur + 1

/-- parser.rs `is_cur_match` (lines 175-177). -/
def isCurMatch (ts : List Token) (cur : Nat) (tt : TokenType) : Bool :=
  !atEnd ts cur && ((peekT ts cur).tokenType == tt)

/-- parser.rs `match_` (lines 158-166). -/
def matchP (ts : List Token) (cur : Nat) (tts : List TokenType) : Bool × Nat :=
  if tts.any (fun tt => isCurMatch ts cur tt) then (true, advanceP ts cur)
  else (false, cur)

/-- parser.rs `error` (lines 198-203). -/
def perror (t : Token) (msg : String) : String :=
  "[line " ++ toString t.lineNum ++ "] Error at \x27" ++ t.lexeme ++ "\x27: " ++ msg

/-- parser.rs `consume` (lines 168-173). -/
def consumeP (ts : List Token) (cur : Nat) (tt : TokenType) (msg : String) :
    Except String Token × Nat :=
  if isCurMatch ts cur tt then (.ok (peekT ts cur), advanceP ts cur)
  else (.error (perror (peekT ts cur) msg), cur)

/-- Error reported when the fuel of a parser function runs out; never
reached from the entry points below, which supply ample fuel. -/
def pFuelMsg : String := "parser fuel exhausted"

mutual

/-- parser.rs `expression` (lines 58-74): equality level, then an optional
`=` whose right-hand side recurses into `expression` itself, valid only
when the left-hand side is a `Variable` node. -/
def pExpression (ts : List Token) : Nat → Nat → Except String Expression × Nat
  | 0, cur => (.error pFuelMsg, cur)
  | fuel+1, cur =>
    match pEquality ts fuel cur with
    | (.error e, cur1) => (.error e, cur1)
    | (.ok left, cur1) =>
      match matchP ts cur1 [.EQUAL] with
      | (true, cur2) =>
        (match pExpression ts fuel cur2 with
         | (.error e, cur3) => (.error e, cur3)
         | (.ok right, cur3) =>
           match left with
           | .var name => (.ok (.assign name right), cur3)
           | _ => (.error (perror (prevT ts cur3) ("Invalid assignment target.")), cur3))
      | (false, cur2) => (.ok left, cur2)
termination_by structural fuel _ => fuel

/-- parser.rs `binary_operation` instantiated with `!=`/`==` over
`comparison` (the equality level of `expression`, lines 59-62). -/
def pEquality (ts : List Token) : Nat → Nat → Except String Expression × Nat
  | 0, cur => (.error pFuelMsg, cur)
  | fuel+1, cur =>
    match pComparison ts fuel cur with
    | (.error e, cur1) => (.error e, cur1)
    | (.ok left, cur1) => pEqualityLoop ts fuel left cur1
termination_by structural fuel _ => fuel

/-- The `while self.match_(operators)` loop of `binary_operation` for the
equality level. -/
def pEqualityLoop (ts : List Token) : Nat → Expression → Nat → Except String Expression × Nat
  | 0, _, cur => (.error pFuelMsg, cur)
  | fuel+1, left, cur =>
    match matchP ts cur [.BANG_EQUAL, .EQUAL_EQUAL] with
    | (true, cur1) =>
      (match pComparison ts fuel cur1 with
       | (.error e, cur2) => (.error e, cur2)
       | (.ok right, cur2) => pEqualityLoop ts fuel (.binary (prevT ts cur1) left right) cur2)
    | (false, cur1) => (.ok left, cur1)
termination_by structural fuel _ _ => fuel

/-- parser.rs `comparison` (lines 76-86). -/
def pComparison (ts : List Token) : Nat → Nat → Except String Expression × Nat
  | 0, cur => (.error pFuelMsg, cur)
  | fuel+1, cur =>
    match pTerm ts fuel cur with
    | (.error e, cur1) => (.error e, cur1)
    | (.ok left, cur1) => pComparisonLoop ts fuel left cur1
termination_by structural fuel _ => fuel

/-- The `binary_operation` loop for the comparison level. -/
def pComparisonLoop (ts : List Token) : Nat → Expression → Nat → Except String Expression × Nat
  | 0, _, cur => (.error pFuelMsg, cur)
  | fuel+1, left, cur =>
    match matchP ts cur [.GREATER, .GREATER_EQUAL, .LESS, .LESS_EQUAL] with
    | (true, cur1) =>
      (match pTerm ts fuel cur1 with
       | (.error e, cur2) => (.error e, cur2)
       | (.ok right, cur2) => pComparisonLoop ts fuel (.binary (prevT ts cur1) left right) cur2)
    | (false, cur1) => (.ok left, cur1)
termination_by structural fuel _ _ => fuel

/-- parser.rs `term` (lines 88-90). -/
def pTerm (ts : List Token) : Nat → Nat → Except String Expression × Nat
  | 0, cur => (.error pFuelMsg, cur)
  | fuel+1, cur =>
    match pFactor ts fuel cur with
    | (.error e, cur1) => (.error e, cur1)
    | (.ok left, cur1) => pTermLoop ts fuel left cur1
termination_by structural fuel _ => fuel

/-- The `binary_operation` loop for the term level. -/
def pTermLoop (ts : List Token) : Nat → Expression → Nat → Except String Expression × Nat
  | 0, _, cur => (.error pFuelMsg, cur)
  | fuel+1, left, cur =>
    match matchP ts cur [.MINUS, .PLUS] with
    | (true, cur1) =>
      (match pFactor ts fuel cur1 with
       | (.error e, cur2) => (.error e, cur2)
       | (.ok right, cur2) => pTermLoop ts fuel (.binary (prevT ts cur1) left right) cur2)
    | (false, cur1) => (.ok left, cur1)
termination_by structural fuel _ _ => fuel

/-- parser.rs `factor` (lines 92-94). -/
def pFactor (ts : List Token) : Nat → Nat → Except String Expression × Nat
  | 0, cur => (.error pFuelMsg, cur)
  | fuel+1, cur =>
    match pUnary ts fuel cur with
    | (.error e, cur1) => (.error e, cur1)
    | (.ok left, cur1) => pFactorLoop ts fuel left cur1
termination_by structural fuel _ => fuel

/-- The `binary_operation` loop for the factor level. -/
def pFactorLoop (ts : List Token) : Nat → Expression → Nat → Except String Expression × Nat
  | 0, _, cur => (.error pFuelMsg, cur)
  | fuel+1, left, cur =>
    match matchP ts cur [.SLASH, .STAR] with
    | (true, cur1) =>
      (match pUnary ts fuel cur1 with
       | (.error e, cur2) => (.error e, cur2)
       | (.ok right, cur2) => pFactorLoop ts fuel (.binary (prevT ts cur1) left right) cur2)
    | (false, cur1) => (.ok left, cur1)
termination_by structural fuel _ _ => fuel

/-- parser.rs `unary` (lines 114-124). -/
def pUnary (ts : List Token) : Nat → Nat → Except String Expression × Nat
  | 0, cur => (.error pFuelMsg, cur)
  | fuel+1, cur =>
    match matchP ts cur [.BANG, .MINUS] with
    | (true, cur1) =>
      (match pUnary ts fuel cur1 with
       | (.error e, cur2) => (.error e, cur2)
       | (.ok e, cur2) => (.ok (.unary (prevT ts cur1) e), cur2))
    | (false, cur1) => pPrimary ts fuel cur1
termination_by structural fuel _ => fuel

/-- parser.rs `primary` (lines 126-156).  The `None` branch of the literal
unwrap models the Rust `unwrap()` panic (line 141); the scanner always
stores a literal on NUMBER and STRING tokens, so it is unreachable from the
pipeline. -/
def pPrimary (ts : List Token) : Nat → Nat → Except String Expression × Nat
  | 0, cur => (.error pFuelMsg, cur)
  | fuel+1, cur =>
    match matchP ts cur [.FALSE] with
    | (true, cur1) => (.ok (.literal (.boolean false)), cur1)
    | (false, cur1) =>
    match matchP ts cur1 [.TRUE] with
    | (true, cur2) => (.ok (.literal (.boolean true)), cur2)
    | (false, cur2) =>
    match matchP ts cur2 [.NIL] with
    | (true, cur3) => (.ok (.literal .nil), cur3)
    | (false, cur3) =>
    match matchP ts cur3 [.NUMBER, .STRING] with
    | (true, cur4) =>
      (match (prevT ts cur4).literal with
       | some l => (.ok (.literal l), cur4)
       | none => (.error ("panic: called Option::unwrap on a None value"), cur4))
    | (false, cur4) =>
    match matchP ts cur4 [.IDENTIFIER] with
    | (true, cur5) => (.ok (.var (prevT ts cur5)), cur5)
    | (false, cur5) =>
    match matchP ts cur5 [.LEFT_PAREN] with
    | (true, cur6) =>
      (match pExpression ts fuel cur6 with
       | (.error e, cur7) => (.error e, cur7)
       | (.ok e, cur7) =>
         match consumeP ts cur7 .RIGHT_PAREN ("Expect \x27)\x27 after expression.") with
         | (.ok _, cur8) => (.ok (.group e), cur8)
         | (.error m, cur8) => (.error m, cur8))
    | (false, cur6) => (.error (perror (peekT ts cur6) ("Expect expression.")), cur6)
termination_by structural fuel _ => fuel

/-- parser.rs `statement` (lines 21-40). -/
def pStatement (ts : List Token) : Nat → Nat → Except String Statement × Nat
  | 0, cur => (.error pFuelMsg, cur)
  | fuel+1, cur =>
    match matchP ts cur [.VAR] with
    | (true, cur1) => pVarDecl ts fuel cur1
    | (false, cur1) =>
    match matchP ts cur1 [.PRINT] with
    | (true, cur2) =>
      (match pExpression ts fuel cur2 with
       | (.error e, cur3) => (.error e, cur3)
       | (.ok e, cur3) =>
         match consumeP ts cur3 .SEMICOLON ("Expect \x27;\x27 after value.") with
         | (.ok _, cur4) => (.ok (.print e), cur4)
         | (.error m, cur4) => (.error m, cur4))
    | (false, cur2) =>
    match matchP ts cur2 [.LEFT_BRACE] with
    | (true, cur3) =>
      (match pBlockLoop ts fuel [] cur3 with
       | (.error e, cur4) => (.error e, cur4)
       | (.ok stmts, cur4) =>
         match consumeP ts cur4 .RIGHT_BRACE ("Expect \x27\x7d\x27 after block.") with
         | (.ok _, cur5) => (.ok (.block stmts), cur5)
         | (.error m, cur5) => (.error m, cur5))
    | (false, cur3) =>
      match pExpression ts fuel cur3 with
      | (.error e, cur4) => (.error e, cur4)
      | (.ok e, cur4) =>
        match consumeP ts cur4 .SEMICOLON ("Expect \x27;\x27 after expression.") with
        | (.ok _, cur5) => (.ok (.expression e), cur5)
        | (.error m, cur5) => (.error m, cur5)
termination_by structural fuel _ => fuel

/-- parser.rs `variable` (lines 42-56). -/
def pVarDecl (ts : List Token) : Nat → Nat → Except String Statement × Nat
  | 0, cur => (.error pFuelMsg, cur)
  | fuel+1, cur =>
    match consumeP ts cur .IDENTIFIER ("Expect variable name.") with
    | (.error m, cur1) => (.error m, cur1)
    | (.ok name, cur1) =>
      match matchP ts cur1 [.EQUAL] with
      | (true, cur2) =>
        (match pExpression ts fuel cur2 with
         | (.error e, cur3) => (.error e, cur3)
         | (.ok e, cur3) =>
           match consumeP ts cur3 .SEMICOLON ("Expect \x27;\x27 after variable declaration.") with
           | (.ok _, cur4) => (.ok (.varDecl name (some e)), cur4)
           | (.error m, cur4) => (.error m, cur4))
      | (false, cur2) =>
        match consumeP ts cur2 .SEMICOLON ("Expect \x27;\x27 after variable declaration.") with
        | (.ok _, cur3) => (.ok (.varDecl name none), cur3)
        | (.error m, cur3) => (.error m, cur3)

/-- The `while !RIGHT_BRACE && !end` loop of the `Block` arm of
`statement` (parser.rs lines 29-32). -/
def pBlockLoop (ts : List Token) : Nat → List Statement → Nat → Except String (List Statement) × Nat
  | 0, _, cur => (.error pFuelMsg, cur)
  | fuel+1, acc, cur =>
    if !isCurMatch ts cur .RIGHT_BRACE && !atEnd ts cur then
      match pStatement ts fuel cur with
      | (.error e, cur1) => (.error e, cur1)
      | (.ok s, cur1) => pBlockLoop ts fuel (acc ++ [s]) cur1
    else (.ok acc, cur)
termination_by structural fuel _ _ => fuel

/-- parser.rs `parse` (lines 13-19): the `while !self.end()` loop. -/
def pParseLoop (ts : List Token) : Nat → List Statement → Nat → Except String (List Statement) × Nat
  | 0, _, cur => (.error pFuelMsg, cur)
  | fuel+1, acc, cur =>
    if atEnd ts cur then (.ok acc, cur)
    else
      match pStatement ts fuel cur with
      | (.error e, cur1) => (.error e, cur1)
      | (.ok s, cur1) => pParseLoop ts fuel (acc ++ [s]) cur1
termination_by structural fuel _ _ => fuel

end

/-- Fuel that the parser entry points can never exhaust: recursion depth is
bounded by a small constant per consumed token. -/
def parserFuel (ts : List Token) : Nat := 16 * ts.length + 16

/-- parser.rs `parse` entry point (lines 13-19). -/
def pParse (ts : List Token) (fuel cur : Nat) : Except String (List Statement) × Nat :=
  pParseLoop ts fuel [] cur

/-! ### interpreter.rs

The interpreter's `HashMap<String, Literal>` environment is modelled as an
association list with insert-or-replace; only `get`, `insert` and
`contains_key` are used by the Rust code, so the model is faithful up to
iteration order, which the code never observes.  Expression evaluation
returns its result together with the environment (the Rust `&mut self`
updates survive into an `Err` return, which matters for claim C10). -/

/-- The variable store (interpreter.rs line 6). -/
abbrev Env := List (String × Literal)

/-- `HashMap::get` on the model. -/
def envGet (env : Env) (k : String) : Option Literal :=
  match env with
  | [] => none
  | (k2, v) :: r => if k2 = k then some v else envGet r k

/-- `HashMap::contains_key` on the model. -/
def envContains (env : Env) (k : String) : Bool :=
  match env with
  | [] => false
  | (k2, _) :: r => if k2 = k then true else envContains r k

/-- `HashMap::insert` on the model: replace in place or append. -/
def envInsert (env : Env) (k : String) (v : Literal) : Env :=
  match env with
  | [] => [(k, v)]
  | (k2, v2) :: r => if k2 = k then (k, v) :: r else (k2, v2) :: envInsert r k v

/-- The runtime error message of `get_variable` / `reassign_variable`
(interpreter.rs lines 127, 139). -/
def undefinedVarMsg (t : Token) : String :=
  "Undefined variable \x27" ++ t.lexeme ++ "\x27.\n[line " ++ toString t.lineNum ++ "]"

/-! Arithmetic on the number model.  The four f64 operations of `evaluate`
are modelled by the corresponding exact rational operations, written via
`Rat.divInt` (cross-multiplied numerators and denominators) so that the
kernel can evaluate them; on the values reachable in the claims these agree
with `f64` arithmetic (no rounding, overflow or NaN is exercised; rational
division by zero yields 0 where `f64` would give an infinity — no claim
divides by zero). -/

/-- Exact model of `f64` addition. -/
def ratAdd (a b : Rat) : Rat := Rat.divInt (a.num * b.den + b.num * a.den) (a.den * b.den)

/-- Exact model of `f64` subtraction. -/
def ratSub (a b : Rat) : Rat := Rat.divInt (a.num * b.den - b.num * a.den) (a.den * b.den)

/-- Exact model of `f64` multiplication. -/
def ratMul (a b : Rat) : Rat := Rat.divInt (a.num * b.num) (a.den * b.den)

/-- Exact model of `f64` division. -/
def ratDiv (a b : Rat) : Rat := Rat.divInt (a.num * b.den) (a.den * b.num)

/-- Exact model of `f64` negation. -/
def ratNeg (a : Rat) : Rat := Rat.divInt (-a.num) a.den

/-- The derived `PartialEq` on `Literal` (grammar.rs line 93): equal tags
and equal payloads; values of different tags are never equal.  (For `f64`
payloads Rust compares by IEEE equality; the `Rat` model agrees on every
value the program can build from lexed literals and the arithmetic in the
claims, which never produce NaN.) -/
def litEq : Literal → Literal → Bool
  | .boolean a, .boolean b => a == b
  | .str a, .str b => a == b
  | .number a, .number b => a == b
  | .nil, .nil => true
  | _, _ => false

/-- interpreter.rs `compare_number` (lines 145-155). -/
def compareNumber (op : TokenType) (l r : Rat) : Bool :=
  match op with
  | .EQUAL_EQUAL => l == r
  | .BANG_EQUAL => l != r
  | .LESS => l < r
  | .LESS_EQUAL => l ≤ r
  | .GREATER => r < l
  | .GREATER_EQUAL => r ≤ l
  | _ => false

/-- interpreter.rs `evaluate` (lines 46-111).  Returns the value (or the
runtime error) together with the environment after evaluation; the
environment part is meaningful even on error, as in the Rust code where
mutations performed before the `?` propagation survive.  The `unreachable!`
(line 63) and `todo!` (line 100) panics are modelled as errors prefixed
with "panic:". -/
def evaluate : Env → Expression → Except String Literal × Env
  | env, .literal l => (.ok l, env)
  | env, .group e => evaluate env e
  | env, .unary op e =>
    (match evaluate env e with
     | (.error m, env1) => (.error m, env1)
     | (.ok v, env1) =>
       match op.tokenType with
       | .BANG =>
         (match v with
          | .boolean b => (.ok (.boolean (!b)), env1)
          | .number n => (.ok (.boolean (n == 0)), env1)
          | .str s => (.ok (.boolean s.isEmpty), env1)
          | .nil => (.ok (.boolean true), env1))
       | .MINUS =>
         (match v with
          | .number n => (.ok (.number (ratNeg n)), env1)
          | _ => (.error ("Operand must be a number."), env1))
       | _ => (.error ("panic: unreachable"), env1))
  | env, .binary op l r =>
    (match evaluate env l with
     | (.error m, env1) => (.error m, env1)
     | (.ok lv, env1) =>
       match evaluate env1 r with
       | (.error m, env2) => (.error m, env2)
       | (.ok rv, env2) =>
         match op.tokenType with
         | .STAR =>
           (match lv, rv with
            | .number a, .number b => (.ok (.number (ratMul a b)), env2)
            | _, _ => (.error ("Operands must be numbers."), env2))
         | .SLASH =>
           (match lv, rv with
            | .number a, .number b => (.ok (.number (ratDiv a b)), env2)
            | _, _ => (.error ("Operands must be numbers."), env2))
         | .PLUS =>
           (match lv, rv with
            | .number a, .number b => (.ok (.number (ratAdd a b)), env2)
            | .str a, .str b => (.ok (.str (a ++ b)), env2)
            | _, _ => (.error ("Operands must be two numbers or two strings."), env2))
         | .MINUS =>
           (match lv, rv with
            | .number a, .number b => (.ok (.number (ratSub a b)), env2)
            | _, _ => (.error ("Operands must be numbers."), env2))
         | .LESS =>
           (match lv, rv with
            | .number a, .number b => (.ok (.boolean (compareNumber .LESS a b)), env2)
            | _, _ => (.error ("Operands must be numbers."), env2))
         | .LESS_EQUAL =>
           (match lv, rv with
            | .number a, .number b => (.ok (.boolean (compareNumber .LESS_EQUAL a b)), env2)
            | _, _ => (.error ("Operands must be numbers."), env2))
         | .GREATER =>
           (match lv, rv with
            | .number a, .number b => (.ok (.boolean (compareNumber .GREATER a b)), env2)
            | _, _ => (.error ("Operands must be numbers."), env2))
         | .GREATER_EQUAL =>
           (match lv, rv with
            | .number a, .number b => (.ok (.boolean (compareNumber .GREATER_EQUAL a b)), env2)
            | _, _ => (.error ("Operands must be numbers."), env2))
         | .EQUAL_EQUAL => (.ok (.boolean (litEq lv rv)), env2)
         | .BANG_EQUAL => (.ok (.boolean (!litEq lv rv)), env2)
         | _ => (.error ("panic: not yet implemented"), env2))
  | env, .var tok =>
    (match envGet env tok.lexeme with
     | some v => (.ok v, env)
     | none => (.error (undefinedVarMsg tok), env))
  | env, .assign name right =>
    match evaluate env right with
    | (.error m, env1) => (.error m, env1)
    | (.ok v, env1) =>
      if envContains env1 name.lexeme then (.ok v, envInsert env1 name.lexeme v)
      else (.error (undefinedVarMsg name), env1)

/-- The text printed for a value by the `Print` statement (interpreter.rs
lines 25-28): numbers bypass `Display for Literal` and use Rust's default
`f64` display; every other value uses `Display for Literal`. -/
def printLine (v : Literal) : String :=
  match v with
  | .number n => fmtNumberDefault n
  | v => fmtLiteral v

/-- interpreter.rs `interpret` / `execute` / `execute_block` (lines 16-44
and 113-120), merged into one list-walking function (statement `s` alone
executes as `execGo fuel env [s]`).  Returns (result, final environment,
output lines).  The `Block` arm mirrors `execute_block` exactly: the
environment is cloned, the body runs, and only on success is the clone
restored — on error the partially mutated environment is kept and the error
propagates.  Fuel bounds nesting depth and statement count only. -/
def execGo : Nat → Env → List Statement → Except String Unit × Env × List String
  | _, env, [] => (.ok (), env, [])
  | 0, env, _ :: _ => (.error ("interpreter fuel exhausted"), env, [])
  | fuel+1, env, s :: rest =>
    let step : Except String Unit × Env × List String :=
      match s with
      | .print e =>
        (match evaluate env e with
         | (.error m, env1) => (.error m, env1, [])
         | (.ok v, env1) => (.ok (), env1, [printLine v]))
      | .expression e =>
        (match evaluate env e with
         | (.error m, env1) => (.error m, env1, [])
         | (.ok _, env1) => (.ok (), env1, []))
      | .varDecl name init =>
        (match init with
         | some e =>
           (match evaluate env e with
            | (.error m, env1) => (.error m, env1, [])
            | (.ok v, env1) => (.ok (), envInsert env1 name.lexeme v, []))
         | none => (.ok (), envInsert env name.lexeme .nil, []))
      | .block stmts =>
        (match execGo fuel env stmts with
         | (.ok _, _, out) => (.ok (), env, out)
         | (.error m, env1, out) => (.error m, env1, out))
    match step with
    | (.error m, env1, out) => (.error m, env1, out)
    | (.ok _, env1, out) =>
      match execGo fuel env1 rest with
      | (r2, env2, out2) => (r2, env2, out ++ out2)

/-! ### main.rs pipelines -/

/-- Outcome of main.rs `run` (lines 73-97). -/
inductive RunResult where
  | lexPanic (msg : String)
  | lexError
  | parseError (msg : String)
  | ran (out : List String) (env : Env) (res : Except String Unit)
deriving Repr

/-- main.rs `run` (lines 73-97): scan, bail out on a lexical error (exit
65), parse all statements, bail out on a parse error (exit 65), then
interpret from an empty environment.  The interpreter fuel
`length + 2` of the source text bounds its recursion, every statement
consuming at least one source character. -/
def runProgram (s : String) : RunResult :=
  match scanTokens s with
  | .error m => .lexPanic m
  | .ok (_, _, true) => .lexError
  | .ok (toks, _, false) =>
    match pParse toks (parserFuel toks) 0 with
    | (.error m, _) => .parseError m
    | (.ok stmts, _) =>
      match execGo (s.toList.length + 2) [] stmts with
      | (r, env, out) => .ran out env r

/-- main.rs `parse` (lines 27-42): scan, bail out on a lexical error, parse
a single expression, print it with `Display for Expression`. -/
def parseMode (s : String) : Except String String :=
  match scanTokens s with
  | .error m => .error m
  | .ok (_, _, true) => .error ("lexical error: exit 65")
  | .ok (toks, _, false) =>
    match pExpression toks (parserFuel toks) 0 with
    | (.ok e, _) => .ok (fmtExpression e)
    | (.error m, _) => .error m

/-- The expression produced by the scanner+parser pipeline on an input, as
used by main.rs `parse` and `evaluate`. -/
def parseExpressionOf (s : String) : Except String Expression :=
  match scanTokens s with
  | .error m => .error m
  | .ok (_, _, true) => .error ("lexical error: exit 65")
  | .ok (toks, _, false) =>
    match pExpression toks (parserFuel toks) 0 with
    | (.ok e, _) => .ok e
    | (.error m, _) => .error m

/-- main.rs `evaluate` (lines 44-71): scan, parse one expression, evaluate
it in an empty environment and print the value (numbers via Rust's default
`f64` display, like `Print`). -/
def evaluateMode (s : String) : Except String String :=
  match parseExpressionOf s with
  | .error m => .error m
  | .ok e =>
    match evaluate [] e with
    | (.ok v, _) => .ok (printLine v)
    | (.error m, _) => .error m

/-- The statement list produced by the scanner+parser pipeline (main.rs
`run`), without interpreting it. -/
def parseProgramOf (s : String) : Except String (List Statement) :=
  match scanTokens s with
  | .error m => .error m
  | .ok (_, _, true) => .error ("lexical error: exit 65")
  | .ok (toks, _, false) =>
    match pParse toks (parserFuel toks) 0 with
    | (.ok stmts, _) => .ok stmts
    | (.error m, _) => .error m

/-- The token list of the source `1 = 2`, used to witness the invalid
assignment target error. -/
def tsOneEqTwo : List Token :=
  [⟨.NUMBER, "1", some (.number 1), 1⟩, ⟨.EQUAL, "=", none, 1⟩,
   ⟨.NUMBER, "2", some (.number 2), 1⟩, ⟨.EOF, "", none, 1⟩]

/-! ### Lemmas about the line counter (claim C6) -/

theorem countLines_neutral_cons {c : Char} (r : List Char)
    (h1 : c ≠ '\n') (h2 : c ≠ '"') (h3 : c ≠ '/') :
    countLines (c :: r) .normal = countLines r .normal := by
  simp [countLines, h1, h2, h3]

theorem countLines_afterSlash_eq (l : List Char) (h : l.head? ≠ some '/') :
    countLines l .afterSlash = countLines l .normal := by
  cases l with
  | nil => rfl
  | cons c r =>
    have hc : c ≠ '/' := by simpa using h
    simp [countLines, hc]

theorem countLines_inString_take (l : List Char) :
    countLines l .inString = countLines (takeStringBody l).2 .normal := by
  induction l with
  | nil => rfl
  | cons c r ih =>
    by_cases h : c = '"'
    · subst h; simp [countLines, takeStringBody]
    · simp [countLines, takeStringBody, h, ih]

theorem countLines_inComment_take (l : List Char) :
    countLines l .inComment =
      (if (takeComment l).2 then 1 else 0) + countLines (takeComment l).1 .normal := by
  induction l with
  | nil => rfl
  | cons c r ih =>
    by_cases h : c = '\n'
    · subst h; simp [countLines, takeComment]
    · simp [countLines, takeComment, h, ih]

theorem countLines_neutral_append (ds r : List Char)
    (h : ∀ x ∈ ds, x ≠ '\n' ∧ x ≠ '"' ∧ x ≠ '/') :
    countLines (ds ++ r) .normal = countLines r .normal := by
  induction ds with
  | nil => rfl
  | cons d ds ih =>
    have hd := h d (by simp)
    rw [List.cons_append, countLines_neutral_cons _ hd.1 hd.2.1 hd.2.2]
    exact ih (fun x hx => h x (by simp [hx]))

theorem neutral_of_isDigit {c : Char} (h : c.isDigit = true) :
    c ≠ '\n' ∧ c ≠ '"' ∧ c ≠ '/' :=
  ⟨by rintro rfl; exact absurd h (by decide),
   by rintro rfl; exact absurd h (by decide),
   by rintro rfl; exact absurd h (by decide)⟩

theorem neutral_of_isAlphanum {c : Char} (h : c.isAlphanum = true) :
    c ≠ '\n' ∧ c ≠ '"' ∧ c ≠ '/' :=
  ⟨by rintro rfl; exact absurd h (by decide),
   by rintro rfl; exact absurd h (by decide),
   by rintro rfl; exact absurd h (by decide)⟩

theorem neutral_of_isAlpha {c : Char} (h : c.isAlpha = true) :
    c ≠ '\n' ∧ c ≠ '"' ∧ c ≠ '/' :=
  ⟨by rintro rfl; exact absurd h (by decide),
   by rintro rfl; exact absurd h (by decide),
   by rintro rfl; exact absurd h (by decide)⟩

theorem takeNumAux_append (l : List Char) (b : Bool) :
    (takeNumAux l b).1 ++ (takeNumAux l b).2 = l := by
  induction l generalizing b with
  | nil => rfl
  | cons c r ih =>
    simp only [takeNumAux]
    split_ifs with h1 h2 <;> simp [ih]

theorem takeNumAux_chars (l : List Char) (b : Bool) :
    ∀ x ∈ (takeNumAux l b).1, x ≠ '\n' ∧ x ≠ '"' ∧ x ≠ '/' := by
  induction l generalizing b with
  | nil => simp [takeNumAux]
  | cons c r ih =>
    simp only [takeNumAux]
    split_ifs with h1 h2
    · intro x hx
      rcases (by simpa using hx : x = c ∨ x ∈ (takeNumAux r b).1) with rfl | hx2
      · exact neutral_of_isDigit h1
      · exact ih b x hx2
    · intro x hx
      rcases (by simpa using hx : x = c ∨ x ∈ (takeNumAux r true).1) with rfl | hx2
      · rw [h2.1]; exact ⟨by decide, by decide, by decide⟩
      · exact ih true x hx2
    · intro x hx
      simp at hx

theorem takeIdent_append (l : List Char) :
    (takeIdent l).1 ++ (takeIdent l).2 = l := by
  induction l with
  | nil => rfl
  | cons c r ih =>
    simp only [takeIdent]
    split_ifs with h1 <;> simp [ih]

theorem takeIdent_chars (l : List Char) :
    ∀ x ∈ (takeIdent l).1, x ≠ '\n' ∧ x ≠ '"' ∧ x ≠ '/' := by
  induction l with
  | nil => simp [takeIdent]
  | cons c r ih =>
    simp only [takeIdent]
    split_ifs with h1
    · intro x hx
      rcases (by simpa using hx : x = c ∨ x ∈ (takeIdent r).1) with rfl | hx2
      · rcases h1 with ha | rfl
        · exact neutral_of_isAlphanum ha
        · exact ⟨by decide, by decide, by decide⟩
      · exact ih x hx2
    · intro x hx
      simp at hx

theorem keywordFind_cases (l : List (String × TokenType)) (w : String) :
    keywordFind l w = .IDENTIFIER ∨ keywordFind l w ∈ l.map Prod.snd := by
  induction l with
  | nil => exact Or.inl rfl
  | cons p r ih =>
    obtain ⟨k, t⟩ := p
    by_cases h : w = k
    · right; simp [keywordFind, h]
    · rcases ih with h2 | h2
      · left; simp [keywordFind, h, h2]
      · right; simp [keywordFind, h]
        exact Or.inr (by simpa using h2)

theorem getTokenTypeOf_ne_eof (w : String) : getTokenTypeOf w ≠ .EOF := by
  intro h
  rcases keywordFind_cases keywordPairs w with h2 | h2 <;>
    rw [getTokenTypeOf] at h <;> rw [h] at h2
  · exact absurd h2 (by decide)
  · exact absurd h2 (by decide)

theorem countLines_cons_newline (r : List Char) :
    countLines ('\n' :: r) .normal = 1 + countLines r .normal := by
  simp [countLines]

theorem countLines_cons_quote (r : List Char) :
    countLines ('"' :: r) .normal = countLines r .inString := by
  simp [countLines]

theorem countLines_cons_slash (r : List Char) :
    countLines ('/' :: r) .normal = countLines r .afterSlash := by
  simp [countLines]

theorem countLines_afterSlash_slash (r : List Char) :
    countLines ('/' :: r) .afterSlash = countLines r .inComment := by
  simp [countLines]

theorem takeComment_cons_slash (r : List Char) :
    takeComment ('/' :: r) = takeComment r := by
  simp [takeComment]

theorem tok_append_no_eof {toks toks2 nw : List Token} {tok : Token}
    (hnw : toks2 = (toks ++ [tok]) ++ nw) (htok : tok.tokenType ≠ .EOF)
    (hnwE : ∀ t ∈ nw, t.tokenType ≠ .EOF) :
    ∃ nw2, toks2 = toks ++ nw2 ∧ ∀ t ∈ nw2, t.tokenType ≠ .EOF := by
  refine ⟨[tok] ++ nw, by rw [hnw, List.append_assoc], ?_⟩
  intro t ht
  rcases List.mem_append.1 ht with h2 | h2
  · rw [List.mem_singleton] at h2; subst h2; exact htok
  · exact hnwE t h2

/-- The core refinement for claim C6: a successful scan loop run advances
the line number by exactly the newline count of `countLines`, and appends
only non-EOF tokens. -/
theorem scanLoop_ok : ∀ (fuel : Nat) (chars : List Char) (line : Nat) (err : Bool)
    (toks toks2 : List Token) (line2 : Nat) (err2 : Bool),
    scanLoop fuel chars line err toks = .ok (toks2, line2, err2) →
    line2 = line + countLines chars .normal ∧
    ∃ nw, toks2 = toks ++ nw ∧ ∀ t ∈ nw, t.tokenType ≠ .EOF := by
  intro fuel
  induction fuel with
  | zero =>
    intro chars line err toks toks2 line2 err2 h
    simp [scanLoop] at h
  | succ fuel ih =>
    intro chars line err toks toks2 line2 err2 h
    cases chars with
    | nil =>
      simp only [scanLoop, Except.ok.injEq, Prod.mk.injEq] at h
      obtain ⟨h1, h2, h3⟩ := h
      subst h1; subst h2
      exact ⟨by simp [countLines], [], by simp, by simp⟩
    | cons c rest =>
      simp only [scanLoop] at h
      rcases eq_or_ne c '(' with rfl | hc1
      · rw [if_pos rfl] at h
        obtain ⟨hl, nw, hnw, hnwE⟩ := ih _ _ _ _ _ _ _ h
        exact ⟨by rw [hl, countLines_neutral_cons rest (by decide) (by decide) (by decide)],
               tok_append_no_eof hnw (by simp [mkTok]) hnwE⟩
      rw [if_neg hc1] at h
      rcases eq_or_ne c ')' with rfl | hc2
      · rw [if_pos rfl] at h
        obtain ⟨hl, nw, hnw, hnwE⟩ := ih _ _ _ _ _ _ _ h
        exact ⟨by rw [hl, countLines_neutral_cons rest (by decide) (by decide) (by decide)],
               tok_append_no_eof hnw (by simp [mkTok]) hnwE⟩
      rw [if_neg hc2] at h
      rcases eq_or_ne c '\x7b' with rfl | hc3
      · rw [if_pos rfl] at h
        obtain ⟨hl, nw, hnw, hnwE⟩ := ih _ _ _ _ _ _ _ h
        exact ⟨by rw [hl, countLines_neutral_cons rest (by decide) (by decide) (by decide)],
               tok_append_no_eof hnw (by simp [mkTok]) hnwE⟩
      rw [if_neg hc3] at h
      rcases eq_or_ne c '\x7d' with rfl | hc4
      · rw [if_pos rfl] at h
        obtain ⟨hl, nw, hnw, hnwE⟩ := ih _ _ _ _ _ _ _ h
        exact ⟨by rw [hl, countLines_neutral_cons rest (by decide) (by decide) (by decide)],
               tok_append_no_eof hnw (by simp [mkTok]) hnwE⟩
      rw [if_neg hc4] at h
      rcases eq_or_ne c ',' with rfl | hc5
      · rw [if_pos rfl] at h
        obtain ⟨hl, nw, hnw, hnwE⟩ := ih _ _ _ _ _ _ _ h
        exact ⟨by rw [hl, countLines_neutral_cons rest (by decide) (by decide) (by decide)],
               tok_append_no_eof hnw (by simp [mkTok]) hnwE⟩
      rw [if_neg hc5] at h
      rcases eq_or_ne c '.' with rfl | hc6
      · rw [if_pos rfl] at h
        obtain ⟨hl, nw, hnw, hnwE⟩ := ih _ _ _ _ _ _ _ h
        exact ⟨by rw [hl, countLines_neutral_cons rest (by decide) (by decide) (by decide)],
               tok_append_no_eof hnw (by simp [mkTok]) hnwE⟩
      rw [if_neg hc6] at h
      rcases eq_or_ne c '-' with rfl | hc7
      · rw [if_pos rfl] at h
        obtain ⟨hl, nw, hnw, hnwE⟩ := ih _ _ _ _ _ _ _ h
        exact ⟨by rw [hl, countLines_neutral_cons rest (by decide) (by decide) (by decide)],
               tok_append_no_eof hnw (by simp [mkTok]) hnwE⟩
      rw [if_neg hc7] at h
      rcases eq_or_ne c '+' with rfl | hc8
      · rw [if_pos rfl] at h
        obtain ⟨hl, nw, hnw, hnwE⟩ := ih _ _ _ _ _ _ _ h
        exact ⟨by rw [hl, countLines_neutral_cons rest (by decide) (by decide) (by decide)],
               tok_append_no_eof hnw (by simp [mkTok]) hnwE⟩
      rw [if_neg hc8] at h
      rcases eq_or_ne c ';' with rfl | hc9
      · rw [if_pos rfl] at h
        obtain ⟨hl, nw, hnw, hnwE⟩ := ih _ _ _ _ _ _ _ h
        exact ⟨by rw [hl, countLines_neutral_cons rest (by decide) (by decide) (by decide)],
               tok_append_no_eof hnw (by simp [mkTok]) hnwE⟩
      rw [if_neg hc9] at h
      rcases eq_or_ne c '*' with rfl | hc10
      · rw [if_pos rfl] at h
        obtain ⟨hl, nw, hnw, hnwE⟩ := ih _ _ _ _ _ _ _ h
        exact ⟨by rw [hl, countLines_neutral_cons rest (by decide) (by decide) (by decide)],
               tok_append_no_eof hnw (by simp [mkTok]) hnwE⟩
      rw [if_neg hc10] at h
      by_cases hcmp : c = '=' ∨ c = '!' ∨ c = '<' ∨ c = '>'
      · rw [if_pos hcmp] at h
        have hcneut : c ≠ '\n' ∧ c ≠ '"' ∧ c ≠ '/' := by
          rcases hcmp with rfl | rfl | rfl | rfl <;> exact ⟨by decide, by decide, by decide⟩
        have hdbl : doubleCmpType c ≠ .EOF := by
          rcases hcmp with rfl | rfl | rfl | rfl <;> decide
        have hsgl : singleCmpType c ≠ .EOF := by
          rcases hcmp with rfl | rfl | rfl | rfl <;> decide
        by_cases heq2 : rest.head? = some '='
        · rw [if_pos heq2] at h
          rcases rest with _ | ⟨d, r2⟩
          · simp at heq2
          · have hd : d = '=' := by simpa using heq2
            subst hd
            simp only [List.drop_succ_cons, List.drop_zero] at h
            obtain ⟨hl, nw, hnw, hnwE⟩ := ih _ _ _ _ _ _ _ h
            refine ⟨?_, tok_append_no_eof hnw hdbl hnwE⟩
            rw [hl, countLines_neutral_cons _ hcneut.1 hcneut.2.1 hcneut.2.2,
                countLines_neutral_cons _ (by decide) (by decide) (by decide)]
        · rw [if_neg heq2] at h
          obtain ⟨hl, nw, hnw, hnwE⟩ := ih _ _ _ _ _ _ _ h
          exact ⟨by rw [hl, countLines_neutral_cons _ hcneut.1 hcneut.2.1 hcneut.2.2],
                 tok_append_no_eof hnw hsgl hnwE⟩
      rw [if_neg hcmp] at h
      rcases eq_or_ne c '/' with rfl | hsl
      · rw [if_pos rfl] at h
        by_cases hslc : rest.head? = some '/'
        · rw [if_pos hslc] at h
          rcases rest with _ | ⟨d, r2⟩
          · simp at hslc
          · have hd : d = '/' := by simpa using hslc
            subst hd
            rw [takeComment_cons_slash] at h
            obtain ⟨hl, nw, hnw, hnwE⟩ := ih _ _ _ _ _ _ _ h
            refine ⟨?_, nw, hnw, hnwE⟩
            rw [hl, countLines_cons_slash, countLines_afterSlash_slash,
                countLines_inComment_take r2]
            cases hfound : (takeComment r2).2 <;> (simp [hfound]; try omega)
        · rw [if_neg hslc] at h
          obtain ⟨hl, nw, hnw, hnwE⟩ := ih _ _ _ _ _ _ _ h
          refine ⟨?_, tok_append_no_eof hnw (by simp [mkTok]) hnwE⟩
          rw [hl, countLines_cons_slash, countLines_afterSlash_eq rest hslc]
      rw [if_neg hsl] at h
      by_cases hws : c = ' ' ∨ c = '\r' ∨ c = '\t'
      · rw [if_pos hws] at h
        have hcneut : c ≠ '\n' ∧ c ≠ '"' ∧ c ≠ '/' := by
          rcases hws with rfl | rfl | rfl <;> exact ⟨by decide, by decide, by decide⟩
        obtain ⟨hl, nw, hnw, hnwE⟩ := ih _ _ _ _ _ _ _ h
        exact ⟨by rw [hl, countLines_neutral_cons _ hcneut.1 hcneut.2.1 hcneut.2.2],
               nw, hnw, hnwE⟩
      rw [if_neg hws] at h
      rcases eq_or_ne c '\n' with rfl | hnl
      · rw [if_pos rfl] at h
        obtain ⟨hl, nw, hnw, hnwE⟩ := ih _ _ _ _ _ _ _ h
        refine ⟨?_, nw, hnw, hnwE⟩
        rw [hl, countLines_cons_newline]
        omega
      rw [if_neg hnl] at h
      rcases eq_or_ne c '"' with rfl | hq
      · rw [if_pos rfl] at h
        by_cases hterm : ('"' :: (takeStringBody rest).1).getLast? ≠ some '"'
        · rw [if_pos hterm] at h
          obtain ⟨hl, nw, hnw, hnwE⟩ := ih _ _ _ _ _ _ _ h
          exact ⟨by rw [hl, countLines_cons_quote, countLines_inString_take], nw, hnw, hnwE⟩
        · rw [if_neg hterm] at h
          by_cases hpanic : ('"' :: (takeStringBody rest).1).length < 2
          · rw [if_pos hpanic] at h
            exact absurd h (by simp)
          · rw [if_neg hpanic] at h
            obtain ⟨hl, nw, hnw, hnwE⟩ := ih _ _ _ _ _ _ _ h
            exact ⟨by rw [hl, countLines_cons_quote, countLines_inString_take],
                   tok_append_no_eof hnw (by simp [mkTok]) hnwE⟩
      rw [if_neg hq] at h
      by_cases hdig : c.isDigit = true
      · rw [if_pos hdig] at h
        obtain ⟨hl, nw, hnw, hnwE⟩ := ih _ _ _ _ _ _ _ h
        have hcneut := neutral_of_isDigit hdig
        refine ⟨?_, tok_append_no_eof hnw (by simp [mkTok]) hnwE⟩
        rw [hl, countLines_neutral_cons _ hcneut.1 hcneut.2.1 hcneut.2.2]
        conv_rhs => rw [← takeNumAux_append rest false]
        rw [countLines_neutral_append _ _ (takeNumAux_chars rest false)]
      rw [if_neg hdig] at h
      by_cases halpha : c.isAlpha = true ∨ c = '_'
      · rw [if_pos halpha] at h
        obtain ⟨hl, nw, hnw, hnwE⟩ := ih _ _ _ _ _ _ _ h
        have hcneut : c ≠ '\n' ∧ c ≠ '"' ∧ c ≠ '/' := by
          rcases halpha with ha | rfl
          · exact neutral_of_isAlpha ha
          · exact ⟨by decide, by decide, by decide⟩
        refine ⟨?_, tok_append_no_eof hnw (getTokenTypeOf_ne_eof _) hnwE⟩
        rw [hl, countLines_neutral_cons _ hcneut.1 hcneut.2.1 hcneut.2.2]
        conv_rhs => rw [← takeIdent_append rest]
        rw [countLines_neutral_append _ _ (takeIdent_chars rest)]
      rw [if_neg halpha] at h
      obtain ⟨hl, nw, hnw, hnwE⟩ := ih _ _ _ _ _ _ _ h
      exact ⟨by rw [hl, countLines_neutral_cons _ hnl hq hsl], nw, hnw, hnwE⟩

/-! ### Lemmas for the parser index invariant (claim C9) -/

theorem advanceP_lt (ts : List Token) (cur : Nat)
    (hg : (ts.getD (ts.length - 1) outTok).tokenType = .EOF)
    (h : cur < ts.length) : advanceP ts cur < ts.length := by
  unfold advanceP
  split_ifs with he
  · exact h
  · rcases Nat.lt_or_ge (cur + 1) ts.length with h2 | h2
    · exact h2
    · exfalso
      apply he
      have hc : cur = ts.length - 1 := by omega
      have hp : peekT ts cur = ts.getD (ts.length - 1) outTok := by rw [hc]; rfl
      unfold atEnd
      rw [hp, hg]
      rfl

theorem matchP_lt (ts : List Token) (cur : Nat) (tts : List TokenType)
    (hg : (ts.getD (ts.length - 1) outTok).tokenType = .EOF)
    (h : cur < ts.length) : (matchP ts cur tts).2 < ts.length := by
  unfold matchP
  split_ifs with hm
  · exact advanceP_lt ts cur hg h
  · exact h

theorem consumeP_lt (ts : List Token) (cur : Nat) (tt : TokenType) (msg : String)
    (hg : (ts.getD (ts.length - 1) outTok).tokenType = .EOF)
    (h : cur < ts.length) : (consumeP ts cur tt msg).2 < ts.length := by
  unfold consumeP
  split_ifs with hm
  · exact advanceP_lt ts cur hg h
  · exact h

/-- The index invariant of every parser function, by induction on fuel:
starting below the token count, the returned index stays below it (the last
token being EOF, `advance` refuses to move past it). -/
theorem parserInv (ts : List Token)
    (hg : (ts.getD (ts.length - 1) outTok).tokenType = .EOF) :
    ∀ fuel : Nat,
    (∀ cur, cur < ts.length → (pExpression ts fuel cur).2 < ts.length) ∧
    (∀ cur, cur < ts.length → (pEquality ts fuel cur).2 < ts.length) ∧
    (∀ left cur, cur < ts.length → (pEqualityLoop ts fuel left cur).2 < ts.length) ∧
    (∀ cur, cur < ts.length → (pComparison ts fuel cur).2 < ts.length) ∧
    (∀ left cur, cur < ts.length → (pComparisonLoop ts fuel left cur).2 < ts.length) ∧
    (∀ cur, cur < ts.length → (pTerm ts fuel cur).2 < ts.length) ∧
    (∀ left cur, cur < ts.length → (pTermLoop ts fuel left cur).2 < ts.length) ∧
    (∀ cur, cur < ts.length → (pFactor ts fuel cur).2 < ts.length) ∧
    (∀ left cur, cur < ts.length → (pFactorLoop ts fuel left cur).2 < ts.length) ∧
    (∀ cur, cur < ts.length → (pUnary ts fuel cur).2 < ts.length) ∧
    (∀ cur, cur < ts.length → (pPrimary ts fuel cur).2 < ts.length) ∧
    (∀ cur, cur < ts.length → (pStatement ts fuel cur).2 < ts.length) ∧
    (∀ cur, cur < ts.length → (pVarDecl ts fuel cur).2 < ts.length) ∧
    (∀ acc cur, cur < ts.length → (pBlockLoop ts fuel acc cur).2 < ts.length) ∧
    (∀ acc cur, cur < ts.length → (pParseLoop ts fuel acc cur).2 < ts.length) := by
  intro fuel
  induction fuel with
  | zero =>
    exact ⟨fun cur h => by simpa [pExpression] using h,
      fun cur h => by simpa [pEquality] using h,
      fun left cur h => by simpa [pEqualityLoop] using h,
      fun cur h => by simpa [pComparison] using h,
      fun left cur h => by simpa [pComparisonLoop] using h,
      fun cur h => by simpa [pTerm] using h,
      fun left cur h => by simpa [pTermLoop] using h,
      fun cur h => by simpa [pFactor] using h,
      fun left cur h => by simpa [pFactorLoop] using h,
      fun cur h => by simpa [pUnary] using h,
      fun cur h => by simpa [pPrimary] using h,
      fun cur h => by simpa [pStatement] using h,
      fun cur h => by simpa [pVarDecl] using h,
      fun acc cur h => by simpa [pBlockLoop] using h,
      fun acc cur h => by simpa [pParseLoop] using h⟩
  | succ fuel ih =>
    obtain ⟨iE, iEq, iEqL, iC, iCL, iT, iTL, iF, iFL, iU, iP, iS, iV, iB, iPL⟩ := ih
    refine ⟨?_, ?_, ?_, ?_, ?_, ?_, ?_, ?_, ?_, ?_, ?_, ?_, ?_, ?_, ?_⟩
    · -- pExpression
      intro cur hcur
      simp only [pExpression]
      rcases hq : pEquality ts fuel cur with ⟨r1, cur1⟩
      have h1 : cur1 < ts.length := by have := iEq cur hcur; rw [hq] at this; exact this
      cases r1 with
      | error e => exact h1
      | ok left =>
        dsimp only
        rcases hm : matchP ts cur1 [.EQUAL] with ⟨b, cur2⟩
        have h2 : cur2 < ts.length := by
          have := matchP_lt ts cur1 [.EQUAL] hg h1; rw [hm] at this; exact this
        cases b with
        | false => exact h2
        | true =>
          dsimp only
          rcases he : pExpression ts fuel cur2 with ⟨r2, cur3⟩
          have h3 : cur3 < ts.length := by have := iE cur2 h2; rw [he] at this; exact this
          cases r2 with
          | error e => exact h3
          | ok right => cases left <;> exact h3
    · -- pEquality
      intro cur hcur
      simp only [pEquality]
      rcases hc : pComparison ts fuel cur with ⟨r1, cur1⟩
      have h1 : cur1 < ts.length := by have := iC cur hcur; rw [hc] at this; exact this
      cases r1 with
      | error e => exact h1
      | ok left => exact iEqL left cur1 h1
    · -- pEqualityLoop
      intro left cur hcur
      simp only [pEqualityLoop]
      rcases hm : matchP ts cur [.BANG_EQUAL, .EQUAL_EQUAL] with ⟨b, cur1⟩
      have h1 : cur1 < ts.length := by
        have := matchP_lt ts cur [.BANG_EQUAL, .EQUAL_EQUAL] hg hcur
        rw [hm] at this; exact this
      cases b with
      | false => exact h1
      | true =>
        dsimp only
        rcases hc : pComparison ts fuel cur1 with ⟨r1, cur2⟩
        have h2 : cur2 < ts.length := by have := iC cur1 h1; rw [hc] at this; exact this
        cases r1 with
        | error e => exact h2
        | ok right => exact iEqL _ cur2 h2
    · -- pComparison
      intro cur hcur
      simp only [pComparison]
      rcases hc : pTerm ts fuel cur with ⟨r1, cur1⟩
      have h1 : cur1 < ts.length := by have := iT cur hcur; rw [hc] at this; exact this
      cases r1 with
      | error e => exact h1
      | ok left => exact iCL left cur1 h1
    · -- pComparisonLoop
      intro left cur hcur
      simp only [pComparisonLoop]
      rcases hm : matchP ts cur [.GREATER, .GREATER_EQUAL, .LESS, .LESS_EQUAL] with ⟨b, cur1⟩
      have h1 : cur1 < ts.length := by
        have := matchP_lt ts cur [.GREATER, .GREATER_EQUAL, .LESS, .LESS_EQUAL] hg hcur
        rw [hm] at this; exact this
      cases b with
      | false => exact h1
      | true =>
        dsimp only
        rcases hc : pTerm ts fuel cur1 with ⟨r1, cur2⟩
        have h2 : cur2 < ts.length := by have := iT cur1 h1; rw [hc] at this; exact this
        cases r1 with
        | error e => exact h2
        | ok right => exact iCL _ cur2 h2
    · -- pTerm
      intro cur hcur
      simp only [pTerm]
      rcases hc : pFactor ts fuel cur with ⟨r1, cur1⟩
      have h1 : cur1 < ts.length := by have := iF cur hcur; rw [hc] at this; exact this
      cases r1 with
      | error e => exact h1
      | ok left => exact iTL left cur1 h1
    · -- pTermLoop
      intro left cur hcur
      simp only [pTermLoop]
      rcases hm : matchP ts cur [.MINUS, .PLUS] with ⟨b, cur1⟩
      have h1 : cur1 < ts.length := by
        have := matchP_lt ts cur [.MINUS, .PLUS] hg hcur
        rw [hm] at this; exact this
      cases b with
      | false => exact h1
      | true =>
        dsimp only
        rcases hc : pFactor ts fuel cur1 with ⟨r1, cur2⟩
        have h2 : cur2 < ts.length := by have := iF cur1 h1; rw [hc] at this; exact this
        cases r1 with
        | error e => exact h2
        | ok right => exact iTL _ cur2 h2
    · -- pFactor
      intro cur hcur
      simp only [pFactor]
      rcases hc : pUnary ts fuel cur with ⟨r1, cur1⟩
      have h1 : cur1 < ts.length := by have := iU cur hcur; rw [hc] at this; exact this
      cases r1 with
      | error e => exact h1
      | ok left => exact iFL left cur1 h1
    · -- pFactorLoop
      intro left cur hcur
      simp only [pFactorLoop]
      rcases hm : matchP ts cur [.SLASH, .STAR] with ⟨b, cur1⟩
      have h1 : cur1 < ts.length := by
        have := matchP_lt ts cur [.SLASH, .STAR] hg hcur
        rw [hm] at this; exact this
      cases b with
      | false => exact h1
      | true =>
        dsimp only
        rcases hc : pUnary ts fuel cur1 with ⟨r1, cur2⟩
        have h2 : cur2 < ts.length := by have := iU cur1 h1; rw [hc] at this; exact this
        cases r1 with
        | error e => exact h2
        | ok right => exact iFL _ cur2 h2
    · -- pUnary
      intro cur hcur
      simp only [pUnary]
      rcases hm : matchP ts cur [.BANG, .MINUS] with ⟨b, cur1⟩
      have h1 : cur1 < ts.length := by
        have := matchP_lt ts cur [.BANG, .MINUS] hg hcur
        rw [hm] at this; exact this
      cases b with
      | false => exact iP cur1 h1
      | true =>
        dsimp only
        rcases hu : pUnary ts fuel cur1 with ⟨r1, cur2⟩
        have h2 : cur2 < ts.length := by have := iU cur1 h1; rw [hu] at this; exact this
        cases r1 with
        | error e => exact h2
        | ok e => exact h2
    · -- pPrimary
      intro cur hcur
      simp only [pPrimary]
      rcases hm1 : matchP ts cur [.FALSE] with ⟨b1, cur1⟩
      have h1 : cur1 < ts.length := by
        have := matchP_lt ts cur [.FALSE] hg hcur; rw [hm1] at this; exact this
      cases b1 with
      | true => exact h1
      | false =>
        dsimp only
        rcases hm2 : matchP ts cur1 [.TRUE] with ⟨b2, cur2⟩
        have h2 : cur2 < ts.length := by
          have := matchP_lt ts cur1 [.TRUE] hg h1; rw [hm2] at this; exact this
        cases b2 with
        | true => exact h2
        | false =>
          dsimp only
          rcases hm3 : matchP ts cur2 [.NIL] with ⟨b3, cur3⟩
          have h3 : cur3 < ts.length := by
            have := matchP_lt ts cur2 [.NIL] hg h2; rw [hm3] at this; exact this
          cases b3 with
          | true => exact h3
          | false =>
            dsimp only
            rcases hm4 : matchP ts cur3 [.NUMBER, .STRING] with ⟨b4, cur4⟩
            have h4 : cur4 < ts.length := by
              have := matchP_lt ts cur3 [.NUMBER, .STRING] hg h3; rw [hm4] at this; exact this
            cases b4 with
            | true =>
              dsimp only
              cases hl : (prevT ts cur4).literal <;> exact h4
            | false =>
              dsimp only
              rcases hm5 : matchP ts cur4 [.IDENTIFIER] with ⟨b5, cur5⟩
              have h5 : cur5 < ts.length := by
                have := matchP_lt ts cur4 [.IDENTIFIER] hg h4; rw [hm5] at this; exact this
              cases b5 with
              | true => exact h5
              | false =>
                dsimp only
                rcases hm6 : matchP ts cur5 [.LEFT_PAREN] with ⟨b6, cur6⟩
                have h6 : cur6 < ts.length := by
                  have := matchP_lt ts cur5 [.LEFT_PAREN] hg h5; rw [hm6] at this; exact this
                cases b6 with
                | false => exact h6
                | true =>
                  dsimp only
                  rcases he : pExpression ts fuel cur6 with ⟨r1, cur7⟩
                  have h7 : cur7 < ts.length := by
                    have := iE cur6 h6; rw [he] at this; exact this
                  cases r1 with
                  | error e => exact h7
                  | ok e =>
                    dsimp only
                    rcases hcp : consumeP ts cur7 .RIGHT_PAREN
                        ("Expect \x27)\x27 after expression.") with ⟨r2, cur8⟩
                    have h8 : cur8 < ts.length := by
                      have := consumeP_lt ts cur7 .RIGHT_PAREN
                        ("Expect \x27)\x27 after expression.") hg h7
                      rw [hcp] at this; exact this
                    cases r2 with
                    | error m => exact h8
                    | ok t => exact h8
    · -- pStatement
      intro cur hcur
      simp only [pStatement]
      rcases hm1 : matchP ts cur [.VAR] with ⟨b1, cur1⟩
      have h1 : cur1 < ts.length := by
        have := matchP_lt ts cur [.VAR] hg hcur; rw [hm1] at this; exact this
      cases b1 with
      | true => exact iV cur1 h1
      | false =>
        dsimp only
        rcases hm2 : matchP ts cur1 [.PRINT] with ⟨b2, cur2⟩
        have h2 : cur2 < ts.length := by
          have := matchP_lt ts cur1 [.PRINT] hg h1; rw [hm2] at this; exact this
        cases b2 with
        | true =>
          dsimp only
          rcases he : pExpression ts fuel cur2 with ⟨r1, cur3⟩
          have h3 : cur3 < ts.length := by have := iE cur2 h2; rw [he] at this; exact this
          cases r1 with
          | error e => exact h3
          | ok e =>
            dsimp only
            rcases hcp : consumeP ts cur3 .SEMICOLON
                ("Expect \x27;\x27 after value.") with ⟨r2, cur4⟩
            have h4 : cur4 < ts.length := by
              have := consumeP_lt ts cur3 .SEMICOLON ("Expect \x27;\x27 after value.") hg h3
              rw [hcp] at this; exact this
            cases r2 with
            | error m => exact h4
            | ok t => exact h4
        | false =>
          dsimp only
          rcases hm3 : matchP ts cur2 [.LEFT_BRACE] with ⟨b3, cur3⟩
          have h3 : cur3 < ts.length := by
            have := matchP_lt ts cur2 [.LEFT_BRACE] hg h2; rw [hm3] at this; exact this
          cases b3 with
          | true =>
            dsimp only
            rcases hb : pBlockLoop ts fuel [] cur3 with ⟨r1, cur4⟩
            have h4 : cur4 < ts.length := by have := iB [] cur3 h3; rw [hb] at this; exact this
            cases r1 with
            | error e => exact h4
            | ok stmts =>
              dsimp only
              rcases hcp : consumeP ts cur4 .RIGHT_BRACE
                  ("Expect \x27\x7d\x27 after block.") with ⟨r2, cur5⟩
              have h5 : cur5 < ts.length := by
                have := consumeP_lt ts cur4 .RIGHT_BRACE ("Expect \x27\x7d\x27 after block.") hg h4
                rw [hcp] at this; exact this
              cases r2 with
              | error m => exact h5
              | ok t => exact h5
          | false =>
            dsimp only
            rcases he : pExpression ts fuel cur3 with ⟨r1, cur4⟩
            have h4 : cur4 < ts.length := by have := iE cur3 h3; rw [he] at this; exact this
            cases r1 with
            | error e => exact h4
            | ok e =>
              dsimp only
              rcases hcp : consumeP ts cur4 .SEMICOLON
                  ("Expect \x27;\x27 after expression.") with ⟨r2, cur5⟩
              have h5 : cur5 < ts.length := by
                have := consumeP_lt ts cur4 .SEMICOLON
                  ("Expect \x27;\x27 after expression.") hg h4
                rw [hcp] at this; exact this
              cases r2 with
              | error m => exact h5
              | ok t => exact h5
    · -- pVarDecl
      intro cur hcur
      simp only [pVarDecl]
      rcases hcp : consumeP ts cur .IDENTIFIER ("Expect variable name.") with ⟨r1, cur1⟩
      have h1 : cur1 < ts.length := by
        have := consumeP_lt ts cur .IDENTIFIER ("Expect variable name.") hg hcur
        rw [hcp] at this; exact this
      cases r1 with
      | error m => exact h1
      | ok name =>
        dsimp only
        rcases hm : matchP ts cur1 [.EQUAL] with ⟨b, cur2⟩
        have h2 : cur2 < ts.length := by
          have := matchP_lt ts cur1 [.EQUAL] hg h1; rw [hm] at this; exact this
        cases b with
        | true =>
          dsimp only
          rcases he : pExpression ts fuel cur2 with ⟨r2, cur3⟩
          have h3 : cur3 < ts.length := by have := iE cur2 h2; rw [he] at this; exact this
          cases r2 with
          | error e => exact h3
          | ok e =>
            dsimp only
            rcases hcp2 : consumeP ts cur3 .SEMICOLON
                ("Expect \x27;\x27 after variable declaration.") with ⟨r3, cur4⟩
            have h4 : cur4 < ts.length := by
              have := consumeP_lt ts cur3 .SEMICOLON
                ("Expect \x27;\x27 after variable declaration.") hg h3
              rw [hcp2] at this; exact this
            cases r3 with
            | error m => exact h4
            | ok t => exact h4
        | false =>
          dsimp only
          rcases hcp2 : consumeP ts cur2 .SEMICOLON
              ("Expect \x27;\x27 after variable declaration.") with ⟨r3, cur3⟩
          have h3 : cur3 < ts.length := by
            have := consumeP_lt ts cur2 .SEMICOLON
              ("Expect \x27;\x27 after variable declaration.") hg h2
            rw [hcp2] at this; exact this
          cases r3 with
          | error m => exact h3
          | ok t => exact h3
    · -- pBlockLoop
      intro acc cur hcur
      simp only [pBlockLoop]
      split_ifs with hcond
      · rcases hs : pStatement ts fuel cur with ⟨r1, cur1⟩
        have h1 : cur1 < ts.length := by have := iS cur hcur; rw [hs] at this; exact this
        cases r1 with
        | error e => exact h1
        | ok s => exact iB _ cur1 h1
      · exact hcur
    · -- pParseLoop
      intro acc cur hcur
      simp only [pParseLoop]
      split_ifs with hcond
      · exact hcur
      · rcases hs : pStatement ts fuel cur with ⟨r1, cur1⟩
        have h1 : cur1 < ts.length := by have := iS cur hcur; rw [hs] at this; exact this
        cases r1 with
        | error e => exact h1
        | ok s => exact iPL _ cur1 h1

/-! ### Claim theorems -/

/-- C1: the spec (and Lox semantics) requires that an assignment made
inside a block to a variable of the enclosing scope stays visible after the
block; the code instead restores the cloned pre-block environment wholesale
in `execute_block` (interpreter.rs lines 113-120), discarding the
assignment.  Running `var a = 1; { a = 2; } print a;` prints `1`, not the
`2` the claim states: the claim is right about the intent and the code is
wrong. -/
theorem c1_block_assignment_discarded :
    runProgram "var a = 1; \x7b a = 2; \x7d print a;" =
      .ran ["1"] [("a", .number 1)] (.ok ()) ∧ ("1" : String) ≠ "2" :=
  ⟨rfl, by decide⟩

/-- C2 counterexample: the `Print` statement (interpreter.rs lines 25-28)
special-cases numbers with Rust's default `f64` display, so `print 3;`
prints `3`, not the `3.0` the claim states. -/
theorem c2_print_integral_counterexample :
    runProgram "print 3;" = .ran ["3"] [] (.ok ()) ∧ ("3" : String) ≠ "3.0" :=
  ⟨rfl, by decide⟩

/-- C2 (amended): a `Print` statement writes the evaluated value as text;
a number with an integral value prints in Rust's default `f64` form with no
decimal point (`3` prints as `3`, not `3.0`), while booleans print as
`true`/`false`, nil prints as `nil`, and strings print without quotes. -/
theorem c2_print_value_forms (fuel : Nat) (env env1 : Env) (e : Expression) :
    (∀ n : Rat, evaluate env e = (.ok (.number n), env1) → n.den = 1 →
      execGo (fuel+1) env [.print e] = (.ok (), env1, [toString n.num])) ∧
    (∀ b : Bool, evaluate env e = (.ok (.boolean b), env1) →
      execGo (fuel+1) env [.print e] = (.ok (), env1, [if b then "true" else "false"])) ∧
    (evaluate env e = (.ok .nil, env1) →
      execGo (fuel+1) env [.print e] = (.ok (), env1, ["nil"])) ∧
    (∀ s : String, evaluate env e = (.ok (.str s), env1) →
      execGo (fuel+1) env [.print e] = (.ok (), env1, [s])) := by
  refine ⟨fun n h hden => ?_, fun b h => ?_, fun h => ?_, fun s h => ?_⟩
  · simp [execGo, h, printLine, fmtNumberDefault, hden]
  · cases b <;> simp [execGo, h, printLine, fmtLiteral]
  · simp [execGo, h, printLine, fmtLiteral]
  · simp [execGo, h, printLine, fmtLiteral]

/-- C2 witness: concrete prints discharging the hypotheses of
`c2_print_value_forms`. -/
theorem c2_print_value_forms_witness :
    execGo 1 [] [.print (.literal (.number 3))] = (.ok (), [], ["3"]) ∧
    execGo 1 [] [.print (.literal (.str "hi"))] = (.ok (), [], ["hi"]) :=
  ⟨(c2_print_value_forms 0 [] [] (.literal (.number 3))).1 3 rfl rfl,
   (c2_print_value_forms 0 [] [] (.literal (.str "hi"))).2.2.2 "hi" rfl⟩

/-- C3: the claim says every unterminated string (including an input whose
final character is a lone opening quote) is reported as a lexical error
without a crash.  The code is wrong on the lone-quote case: `handle_string`
(scanner.rs lines 108-123) then has `current == "\""`, which passes the
`ends_with('"')` check, and the slice `current[1..0]` panics.  An
unterminated string with at least one character after the quote is handled
as the claim says: error flag set, no token emitted, scan finishes. -/
theorem c3_unterminated_string_handling :
    scanTokens "\x22" = .error ("panic: slice index starts at 1 but ends at 0") ∧
    scanTokens "\x22abc" = .ok ([⟨.EOF, "", none, 1⟩], 1, true) :=
  ⟨rfl, rfl⟩

/-- C4: a `var` declaration inside a block does not leak: `execute_block`
(interpreter.rs lines 113-120) restores the cloned pre-block environment on
success, so the environment after a successfully executed block is exactly
the environment before it; and `var a = 1; { var a = 2; } print a;` prints
`1`. -/
theorem c4_block_declaration_no_leak (fuel : Nat) (env env1 : Env)
    (stmts : List Statement) (out : List String)
    (h : execGo fuel env stmts = (.ok (), env1, out)) :
    execGo (fuel+1) env [.block stmts] = (.ok (), env, out) ∧
    runProgram "var a = 1; \x7b var a = 2; \x7d print a;" =
      .ran ["1"] [("a", .number 1)] (.ok ()) := by
  exact ⟨by simp [execGo, h], rfl⟩

/-- C4 witness: a block whose body declares `a = 2` leaves the empty outer
environment unchanged. -/
theorem c4_block_declaration_no_leak_witness :
    execGo 2 [] [.block [.varDecl ⟨.IDENTIFIER, "a", none, 1⟩ (some (.literal (.number 2)))]] =
      (.ok (), [], []) ∧
    runProgram "var a = 1; \x7b var a = 2; \x7d print a;" =
      .ran ["1"] [("a", .number 1)] (.ok ()) :=
  c4_block_declaration_no_leak 1 [] [("a", .number 2)]
    [.varDecl ⟨.IDENTIFIER, "a", none, 1⟩ (some (.literal (.number 2)))] [] rfl

/-- C5 counterexample: in parse mode a `Variable` node does not print as
its bare identifier text; `Display for Expression` (grammar.rs line 152)
prints it as `(var name)`. -/
theorem c5_variable_display_counterexample :
    parseMode "foo" = .ok "(var foo)" ∧ ("(var foo)" : String) ≠ "foo" :=
  ⟨rfl, by decide⟩

/-- C5 (amended): parse mode prints the parsed expression in fully
parenthesized prefix form: literals print their value text, operators print
as `(<op> <operand>...)`, groups as `(group <inner>)`, but a `Variable`
node prints as `(var <name>)` and an assignment as `(assign <name>
<value>)`, not as bare text. -/
theorem c5_display_prefix_form :
    (∀ t : Token, fmtExpression (.var t) = "(var " ++ t.lexeme ++ ")") ∧
    (∀ (t : Token) (e : Expression),
      fmtExpression (.assign t e) = "(assign " ++ t.lexeme ++ " " ++ fmtExpression e ++ ")") ∧
    (∀ l : Literal, fmtExpression (.literal l) = fmtLiteral l) ∧
    (∀ e : Expression, fmtExpression (.group e) = "(group " ++ fmtExpression e ++ ")") ∧
    (∀ (op : Token) (e : Expression),
      fmtExpression (.unary op e) = "(" ++ op.lexeme ++ " " ++ fmtExpression e ++ ")") ∧
    (∀ (op : Token) (l r : Expression),
      fmtExpression (.binary op l r) =
        "(" ++ op.lexeme ++ " " ++ fmtExpression l ++ " " ++ fmtExpression r ++ ")") ∧
    parseMode "(1 + 2)" = .ok "(group (+ 1.0 2.0))" :=
  ⟨fun _ => rfl, fun _ _ => rfl, fun _ => rfl, fun _ => rfl, fun _ _ => rfl,
   fun _ _ _ => rfl, rfl⟩

/-- C6 counterexample: a newline inside a string literal does not advance
the scanner's line counter (`handle_string`, scanner.rs lines 108-123,
never touches `line_num`), so on the two-line input `"a⏎b"` the EOF token
carries line number 1 while the claim (one plus the number of newline
characters in the source, newlines inside strings included) demands 2. -/
theorem c6_string_newline_counterexample :
    scanTokens "\x22a\nb\x22" =
      .ok ([⟨.STRING, "\x22a\nb\x22", some (.str "a\nb"), 1⟩, ⟨.EOF, "", none, 1⟩],
        1, false) ∧
    (("\x22a\nb\x22" : String).toList.filter (fun c => c = '\n')).length + 1 = 2 ∧
    (1 : Nat) ≠ 2 :=
  ⟨rfl, by decide, by decide⟩

/-- C6 (amended): for every input on which `scan_tokens` completes (it
panics when the final character is a lone opening quote, see C3), the token
sequence contains exactly one EOF token, that token is the last element,
and its line number is one plus the number of newline characters the
scanner counts: every newline outside string literals, including the
newline terminating a `//` comment, but not newlines inside string
literals. -/
theorem c6_eof_unique_last_line (s : String) (toks : List Token) (line : Nat) (err : Bool)
    (h : scanTokens s = .ok (toks, line, err)) :
    toks.getLast? = some ⟨.EOF, "", none, 1 + countLines s.toList .normal⟩ ∧
    toks.filter (fun t => t.tokenType == .EOF) =
      [⟨.EOF, "", none, 1 + countLines s.toList .normal⟩] := by
  unfold scanTokens at h
  cases hsc : scanLoop (s.toList.length + 1) s.toList 1 false [] with
  | error m => rw [hsc] at h; exact absurd h (by simp)
  | ok res =>
    obtain ⟨toks1, line1, err1⟩ := res
    rw [hsc] at h
    simp only [Except.ok.injEq, Prod.mk.injEq] at h
    obtain ⟨h1, h2, h3⟩ := h
    obtain ⟨hline, nw, hnw, hnwE⟩ := scanLoop_ok _ _ _ _ _ _ _ _ hsc
    simp only [List.nil_append] at hnw
    rw [← h1, hnw, hline]
    constructor
    · simp
    · rw [List.filter_append]
      have hfe : nw.filter (fun t => t.tokenType == .EOF) = [] := by
        rw [List.filter_eq_nil_iff]
        intro t ht
        simpa using hnwE t ht
      rw [hfe]
      simp

/-- C6 witness: the amended statement on the concrete two-line input
`a⏎`. -/
theorem c6_eof_unique_last_line_witness :
    ([⟨.IDENTIFIER, "a", none, 1⟩, ⟨.EOF, "", none, 2⟩] : List Token).getLast? =
      some ⟨.EOF, "", none, 1 + countLines ("a\n" : String).toList .normal⟩ ∧
    ([⟨.IDENTIFIER, "a", none, 1⟩, ⟨.EOF, "", none, 2⟩] : List Token).filter
        (fun t => t.tokenType == .EOF) =
      [⟨.EOF, "", none, 1 + countLines ("a\n" : String).toList .normal⟩] :=
  c6_eof_unique_last_line "a\n" [⟨.IDENTIFIER, "a", none, 1⟩, ⟨.EOF, "", none, 2⟩] 2 false rfl

/-- C7: assignment parsing is right-associative (the right-hand side of `=`
recurses into the full `expression` producer, parser.rs lines 63-72), its
only valid target is a `Variable` node (any other successfully parsed
left-hand side before `=` with a well-parsed right-hand side is the parse
error "Invalid assignment target."), `a = b = 3` parses as
`Assign(a, Assign(b, 3))`, and executing `a = b = 3;` with `a`, `b`
pre-declared stores `3` into both. -/
theorem c7_assignment_right_assoc (ts : List Token) (fuel cur cur1 cur2 cur3 : Nat)
    (left right : Expression)
    (h1 : pEquality ts fuel cur = (.ok left, cur1))
    (h2 : matchP ts cur1 [.EQUAL] = (true, cur2))
    (h3 : pExpression ts fuel cur2 = (.ok right, cur3))
    (h4 : left.isVarNode = false) :
    pExpression ts (fuel+1) cur =
      (.error (perror (prevT ts cur3) ("Invalid assignment target.")), cur3) ∧
    parseExpressionOf "a = b = 3" =
      .ok (.assign ⟨.IDENTIFIER, "a", none, 1⟩
        (.assign ⟨.IDENTIFIER, "b", none, 1⟩ (.literal (.number 3)))) ∧
    execGo 1 [("a", .nil), ("b", .nil)]
        [.expression (.assign ⟨.IDENTIFIER, "a", none, 1⟩
          (.assign ⟨.IDENTIFIER, "b", none, 1⟩ (.literal (.number 3))))] =
      (.ok (), [("a", .number 3), ("b", .number 3)], []) ∧
    parseProgramOf "a = b = 3;" =
      .ok [.expression (.assign ⟨.IDENTIFIER, "a", none, 1⟩
        (.assign ⟨.IDENTIFIER, "b", none, 1⟩ (.literal (.number 3))))] := by
  refine ⟨?_, rfl, rfl, rfl⟩
  simp only [pExpression, h1, h2, h3]
  cases left <;> simp [Expression.isVarNode] at h4 ⊢

/-- C7 witness: on `1 = 2` the left-hand side is a number literal, so the
parser reports "Invalid assignment target." at the last token of the parsed
right-hand side. -/
theorem c7_assignment_right_assoc_witness :
    pExpression tsOneEqTwo 13 0 =
      (.error ("[line 1] Error at \x272\x27: Invalid assignment target."), 3) ∧
    parseExpressionOf "a = b = 3" =
      .ok (.assign ⟨.IDENTIFIER, "a", none, 1⟩
        (.assign ⟨.IDENTIFIER, "b", none, 1⟩ (.literal (.number 3)))) :=
  ⟨(c7_assignment_right_assoc tsOneEqTwo 12 0 1 2 3
      (.literal (.number 1)) (.literal (.number 2)) rfl rfl rfl rfl).1,
   (c7_assignment_right_assoc tsOneEqTwo 12 0 1 2 3
      (.literal (.number 1)) (.literal (.number 2)) rfl rfl rfl rfl).2.1⟩

/-- C8: `==` and `!=` evaluate to a boolean for every pair of operand
values and never raise a runtime error (interpreter.rs lines 98-99);
equality is by tag and value with no coercion: a number is never equal to a
string, nil is equal only to nil, and `1 == "1"` evaluates to `false`
without raising. -/
theorem c8_equality_total_by_tag (env : Env) (l r : Literal) :
    evaluate env (.binary ⟨.EQUAL_EQUAL, "==", none, 1⟩ (.literal l) (.literal r)) =
      (.ok (.boolean (litEq l r)), env) ∧
    evaluate env (.binary ⟨.BANG_EQUAL, "!=", none, 1⟩ (.literal l) (.literal r)) =
      (.ok (.boolean (!litEq l r)), env) ∧
    (∀ (n : Rat) (s : String),
      litEq (.number n) (.str s) = false ∧ litEq (.str s) (.number n) = false) ∧
    litEq .nil .nil = true ∧
    (∀ (b : Bool) (n : Rat) (s : String),
      litEq .nil (.boolean b) = false ∧ litEq .nil (.number n) = false ∧
        litEq .nil (.str s) = false) ∧
    evaluateMode "1 == \x221\x22" = .ok "false" :=
  ⟨rfl, rfl, fun _ _ => ⟨rfl, rfl⟩, rfl, fun _ _ _ => ⟨rfl, rfl, rfl⟩, rfl⟩

/-- C9: for every non-empty token list whose last element is an EOF token
(the shape `scan_tokens` always produces), the parser entry points
(`parse`, `expression`, `statement`) keep the current index strictly below
the token count — that is, at most the position of the final EOF — so
`peek`'s indexing `tokens[current]` never goes out of bounds: `advance`
refuses to move past EOF and `end()` stops every matching loop there. -/
theorem c9_parser_index_invariant (ts : List Token) (tk : Token)
    (_hne : ts ≠ []) (hlast : ts.getLast? = some tk) (htk : tk.tokenType = .EOF)
    (fuel cur : Nat) (hcur : cur < ts.length) :
    (pParse ts fuel cur).2 < ts.length ∧
    (pExpression ts fuel cur).2 < ts.length ∧
    (pStatement ts fuel cur).2 < ts.length := by
  have h1 := hlast
  rw [List.getLast?_eq_getElem?] at h1
  have hg : (ts.getD (ts.length - 1) outTok).tokenType = .EOF := by
    rw [List.getD_eq_getElem?_getD, h1]
    exact htk
  obtain ⟨iE, -, -, -, -, -, -, -, -, -, -, iS, -, -, iPL⟩ := parserInv ts hg fuel
  exact ⟨iPL [] cur hcur, iE cur hcur, iS cur hcur⟩

/-- C9 witness: the invariant on the one-token list holding only EOF. -/
theorem c9_parser_index_invariant_witness :
    (pParse [⟨.EOF, "", none, 1⟩] 3 0).2 < 1 ∧
    (pExpression [⟨.EOF, "", none, 1⟩] 3 0).2 < 1 ∧
    (pStatement [⟨.EOF, "", none, 1⟩] 3 0).2 < 1 :=
  c9_parser_index_invariant [⟨.EOF, "", none, 1⟩] ⟨.EOF, "", none, 1⟩
    (by simp) rfl rfl 3 0 (by decide)

/-- C10: when a statement inside a block raises a runtime error, the error
propagates before `execute_block` reaches its restore step (interpreter.rs
lines 113-120), so the partially mutated environment is kept — unlike
successful completion, which restores the saved store.  Concretely, after
`var a = 1; { var b = 2; c; }` fails on the undefined `c`, the store still
holds the inner declaration `b = 2`. -/
theorem c10_block_error_no_restore (fuel : Nat) (env env1 : Env) (msg : String)
    (stmts : List Statement) (out : List String)
    (h : execGo fuel env stmts = (.error msg, env1, out)) :
    execGo (fuel+1) env [.block stmts] = (.error msg, env1, out) ∧
    runProgram "var a = 1; \x7b var b = 2; c; \x7d" =
      .ran [] [("a", .number 1), ("b", .number 2)]
        (.error (undefinedVarMsg ⟨.IDENTIFIER, "c", none, 1⟩)) := by
  exact ⟨by simp [execGo, h], rfl⟩

/-- C10 witness: a block failing on an undefined variable keeps the store
it had mutated before the failure. -/
theorem c10_block_error_no_restore_witness :
    execGo 3 [] [.block [.varDecl ⟨.IDENTIFIER, "b", none, 1⟩ (some (.literal (.number 2))),
        .expression (.var ⟨.IDENTIFIER, "c", none, 1⟩)]] =
      (.error (undefinedVarMsg ⟨.IDENTIFIER, "c", none, 1⟩), [("b", .number 2)], []) ∧
    runProgram "var a = 1; \x7b var b = 2; c; \x7d" =
      .ran [] [("a", .number 1), ("b", .number 2)]
        (.error (undefinedVarMsg ⟨.IDENTIFIER, "c", none, 1⟩)) :=
  c10_block_error_no_restore 2 [] [("b", .number 2)]
    (undefinedVarMsg ⟨.IDENTIFIER, "c", none, 1⟩)
    [.varDecl ⟨.IDENTIFIER, "b", none, 1⟩ (some (.literal (.number 2))),
     .expression (.var ⟨.IDENTIFIER, "c", none, 1⟩)] [] rfl

end RustyLox
